import Mathlib

/-!
Verification of the vision-detection backend (`vision_analyzer/analyzer.py`
and `vision_analyzer/main.py`).

The Python source is shallowly embedded: pure functions become Lean
functions; the stateful job-processing pipeline becomes an explicit trace
of job states; code that can raise returns `Except`.  Machine floats are
modelled by `ℚ` (the quantities involved — frame counts, strides, progress
percentages, timestamps — are exactly representable small rationals, and
none of the verified claims depends on rounding of binary floats).
-/

namespace VisionDetection

/-- Python `int(x)` applied to a float: truncation toward zero. -/
def pyInt (q : ℚ) : ℤ := if 0 ≤ q then ⌊q⌋ else ⌈q⌉

/-- Python `round(x)` on a float: round half to even. -/
def pyRound (q : ℚ) : ℤ :=
  if q - ⌊q⌋ < 1/2 then ⌊q⌋
  else if q - ⌊q⌋ > 1/2 then ⌊q⌋ + 1
  else if 2 ∣ ⌊q⌋ then ⌊q⌋ else ⌊q⌋ + 1

/-- Metadata an opened `cv2.VideoCapture` reports: frame rate
(`CAP_PROP_FPS`) and total frame count (`CAP_PROP_FRAME_COUNT`); the
source then delivers exactly `total_frames` sequential reads. -/
structure VideoSource where
  fps : ℚ
  total_frames : ℕ
deriving DecidableEq, Repr

/-- Model of `VisionAnalyzer.extract_frames` (analyzer.py lines 36-78), for an
openable source.  Computes `frame_interval = int(fps * interval_seconds)`
and keeps every read frame whose index is a multiple of it, together with
timestamp `index / fps`.  A zero `fps` makes `duration = total_frames/fps`
raise, and a zero `frame_interval` makes `frame_count % frame_interval`
raise; both are modelled as errors.  Frames are returned as their source
indices (the pixel data is irrelevant to every claim). -/
def extract_frames (src : VideoSource) (interval_seconds : ℚ) :
    Except String (List ℕ × List ℚ) :=
  if src.fps = 0 then
    Except.error "ZeroDivisionError: float division by zero"
  else
    let frame_interval : ℤ := pyInt (src.fps * interval_seconds)
    if frame_interval = 0 then
      Except.error "ZeroDivisionError: integer modulo by zero"
    else
      let idxs := (List.range src.total_frames).filter
        (fun (k : ℕ) => (k : ℤ) % frame_interval == 0)
      Except.ok (idxs, idxs.map (fun (k : ℕ) => (k : ℚ) / src.fps))

/-- The sampling stride the specification text prescribes:
`round(frameRate × intervalSeconds)` with a minimum of 1.  Stated from the
spec's words, for comparison against the code's `int(fps * interval)`. -/
def claimedStride (f i : ℚ) : ℤ := max (pyRound (f * i)) 1

/-- The frame count the specification text predicts:
`⌈(D×f)/round(f×i)⌉` with `D×f = total_frames`.  Stated from the spec's
words, for comparison against the code. -/
def claimedFrameCount (N : ℕ) (f i : ℚ) : ℤ :=
  ⌈(N : ℚ) / (claimedStride f i : ℚ)⌉

/-! ## Detections and the scene-description generator (analyzer.py) -/

/-- The list `self.navigation_classes` (analyzer.py lines 17-22). -/
def navigation_classes : List String :=
  ["person", "bicycle", "car", "motorcycle", "bus", "truck",
   "traffic light", "fire hydrant", "stop sign", "parking meter",
   "bench", "backpack", "umbrella", "handbag", "suitcase",
   "sports ball", "bottle", "chair", "potted plant", "skateboard"]

/-- The list `self.safety_critical_classes` (analyzer.py lines 25-28). -/
def safety_critical_classes : List String :=
  ["person", "car", "motorcycle", "bus", "truck", "bicycle",
   "traffic light", "stop sign"]

/-- The vehicle classes `['car', 'bus', 'truck', 'motorcycle']` the
description and summary code filters on. -/
def vehicle_class_names : List String := ["car", "bus", "truck", "motorcycle"]

/-- The traffic-signal classes `['traffic light', 'stop sign']`. -/
def traffic_signal_class_names : List String := ["traffic light", "stop sign"]

/-- One detected object as `analyze_frame` records it: the class string
plus the two derived relevance flags.  Bounding box, confidence and
center are irrelevant to every claim. -/
structure DetObj where
  className : String
  navigation_relevant : Bool
  safety_critical : Bool
deriving DecidableEq, Repr

/-- The fields of `analyze_frame`'s result dictionary consumed by the
description generator and the summaries. -/
structure FrameAnalysis where
  detected_objects : List DetObj
  safety_objects_count : ℕ
deriving DecidableEq, Repr

/-- Model of `VisionAnalyzer.analyze_frame` (analyzer.py lines 80-119) given the
class names the YOLO model reports for a frame (the detection model is an
external collaborator; which classes it reports is unconstrained). -/
def analyze_frame_result (classes : List String) : FrameAnalysis :=
  let detected_objects := classes.map (fun c =>
    { className := c,
      navigation_relevant := navigation_classes.contains c,
      safety_critical := safety_critical_classes.contains c : DetObj })
  { detected_objects := detected_objects,
    safety_objects_count :=
      (detected_objects.filter (fun o => o.safety_critical)).length }

/-- Python `f"{n:02d}"`. -/
def pad2Int (n : ℤ) : String :=
  if 0 ≤ n ∧ n < 10 then "0" ++ toString n else toString n

/-- The timestamp format `f"{int(timestamp//60):02d}:{int(timestamp%60):02d}"`
(analyzer.py line 237, also main.py line 123).  For a float `t`,
`t // 60` floors and `t % 60 = t - 60*⌊t/60⌋ ∈ [0, 60)`, so the inner
`int(...)` truncations are floors. -/
def format_time (t : ℚ) : String :=
  pad2Int ⌊t / 60⌋ ++ ":" ++ pad2Int ⌊t - 60 * ((⌊t / 60⌋ : ℤ) : ℚ)⌋

/-- The scene-type selection chain (analyzer.py lines 275-285),
first match wins. -/
def sceneTypeOf (vehicles : List DetObj) (people_count : ℕ) : String :=
  if vehicles ≠ [] ∧ 3 < people_count then "Busy street"
  else if 0 < people_count ∧ vehicles = [] then "Pedestrian area"
  else if vehicles ≠ [] then "Traffic area"
  else if 0 < people_count then "Public space"
  else "Open area"

/-- Model of `VisionAnalyzer.generate_text_analysis` (analyzer.py lines 215-293).
`pySet` models `list(set(xs))`: it materialises the distinct elements of
`xs` in the iteration order of CPython's hash-seeded `set`, which is not
fixed across runs; any duplicate-free permutation of the distinct
elements is a possible outcome. -/
def generate_text_analysis (pySet : List String → List String)
    (analysis : FrameAnalysis) (timestamp : ℚ) : String :=
  let objects := analysis.detected_objects
  let nav_objects := objects.filter (fun o => o.navigation_relevant)
  let people_count := (objects.filter (fun o => o.className == "person")).length
  let vehicles := objects.filter (fun o => vehicle_class_names.contains o.className)
  let traffic_signals :=
    objects.filter (fun o => traffic_signal_class_names.contains o.className)
  let bicycles := objects.filter (fun o => o.className == "bicycle")
  let time_str := format_time timestamp
  if nav_objects = [] then
    "[" ++ time_str ++ "] Clear view ahead with minimal activity."
  else
    let parts_people : List String :=
      if 0 < people_count then
        if people_count = 1 then ["person visible"]
        else [toString people_count ++ " people in view"]
      else []
    let parts_vehicles : List String :=
      match vehicles with
      | [] => []
      | v :: rest =>
          if rest = [] then [v.className ++ " present"]
          else
            let vehicle_types := pySet (vehicles.map (fun u => u.className))
            [toString vehicles.length ++ " vehicles (" ++
              String.intercalate ", " vehicle_types ++ ")"]
    let parts_bicycles : List String :=
      if bicycles = [] then []
      else if bicycles.length = 1 then ["cyclist nearby"]
      else [toString bicycles.length ++ " cyclists"]
    let parts_signals : List String :=
      if traffic_signals = [] then []
      else
        let signal_types := pySet (traffic_signals.map (fun o => o.className))
        ["traffic infrastructure: " ++ String.intercalate ", " signal_types]
    let description_parts :=
      parts_people ++ parts_vehicles ++ parts_bicycles ++ parts_signals
    let scene_type := sceneTypeOf vehicles people_count
    if description_parts = [] then
      "[" ++ time_str ++ "] " ++ scene_type ++ " with minimal activity."
    else
      "[" ++ time_str ++ "] " ++ scene_type ++ ": " ++
        String.intercalate ", " description_parts ++ "."

/-- A set materialisation CPython can produce: distinct elements, here in
one particular order. -/
def pySetA (xs : List String) : List String := xs.dedup

/-- A set materialisation CPython can produce under another hash seed:
the same distinct elements in reversed order. -/
def pySetB (xs : List String) : List String := xs.dedup.reverse

/-- Model of `VisionAnalyzer.get_navigation_summary` (analyzer.py lines 329-343),
as the key-value dictionary it returns. -/
def get_navigation_summary (analysis : FrameAnalysis) : List (String × ℕ) :=
  let objects := analysis.detected_objects
  let people_count := (objects.filter (fun o => o.className == "person")).length
  let vehicle_count :=
    (objects.filter (fun o => vehicle_class_names.contains o.className)).length
  let bicycle_count := (objects.filter (fun o => o.className == "bicycle")).length
  [("total_objects", objects.length),
   ("people_count", people_count),
   ("vehicle_count", vehicle_count),
   ("bicycle_count", bicycle_count),
   ("safety_critical_count", analysis.safety_objects_count)]

/-- The lookup `result.get('navigation_summary', {}).get('risk_level', 'UNKNOWN')`
in `get_analysis_text` (main.py line 322): lookup with default. -/
def riskLevelOf (navigation_summary : List (String × ℕ)) : String :=
  match navigation_summary.lookup "risk_level" with
  | some v => toString v
  | none => "UNKNOWN"

/-- The `session_stats` risk counters computed by `get_analysis_text`
(main.py lines 322-334): (high, medium, low) risk-moment counts. -/
def session_stats (summaries : List (List (String × ℕ))) : ℕ × ℕ × ℕ :=
  let risk_levels := summaries.map riskLevelOf
  let high_risk_count := risk_levels.count "HIGH"
  let medium_risk_count := risk_levels.count "MEDIUM"
  (high_risk_count, medium_risk_count,
    risk_levels.length - high_risk_count - medium_risk_count)

/-- Helper: the timestamp-prefix string at time zero. -/
theorem format_time_zero : format_time 0 = "00:00" := by
  have h1 : ⌊(0 : ℚ) / 60⌋ = 0 := by norm_num
  rw [format_time, h1]
  norm_num [pad2Int]
  rfl

/-! ## The job record and the processing pipeline (main.py)

`process_video_sync` mutates one `ProcessingStatus` object in place; the
embedding records the sequence of job states the record passes through,
one entry per contiguous block of field updates (each state-machine
transition applied atomically), which is what a status poll can observe.
The per-frame body (detection, rendering, artifact write) and the final
result dump are the pipeline's fallible collaborators; they are passed in
as `Except`-valued functions.  The per-frame payload stays abstract in
`α`. -/

/-- The mutable fields of `ProcessingStatus` (main.py lines 45-68);
`video_id`, `filename` and `start_time` are immutable after creation and
are irrelevant to the claims. -/
structure JobState where
  status : String
  progress : ℚ
  current_step : String
  total_frames : ℕ
  processed_frames : ℕ
  error_message : Option String
deriving DecidableEq, Repr

/-- The state `ProcessingStatus.__init__` creates (main.py lines 46-55). -/
def initialStatus : JobState :=
  { status := "uploaded", progress := 0,
    current_step := "File uploaded successfully",
    total_frames := 0, processed_frames := 0, error_message := none }

/-- The state written when entering the `except` block
(main.py lines 141-144). -/
def errState (st : JobState) (e : String) : JobState :=
  { st with
    status := "error", error_message := some e,
    current_step := "Error during processing: " ++ e }

/-- The first update block of `process_video_sync`
(main.py lines 82-84). -/
def extractingState : JobState :=
  { initialStatus with
    status := "extracting",
    current_step := "Extracting frames from video...", progress := 10 }

/-- The update block after `extract_frames` returns
(main.py lines 88-90). -/
def extractedState (n : ℕ) : JobState :=
  { extractingState with
    total_frames := n, progress := 20,
    current_step := "Extracted " ++ toString n ++
      " frames. Starting AI analysis..." }

/-- The completion block (main.py lines 137-139). -/
def completeState (st : JobState) (n : ℕ) : JobState :=
  { st with
    status := "complete", progress := 100,
    current_step := "Analysis complete! Processed " ++ toString n ++
      " frames." }

/-- The `for i, (frame, timestamp) in enumerate(...)` loop of
`process_video_sync` (main.py lines 100-134), followed by the result dump
and the completion block.  Returns the observable job states (in order)
and the accumulated `results` list. -/
def analyzeLoop {α : Type} (body : ℕ → ℚ → Except String α)
    (persist : List (ℕ × ℚ × α) → Except String Unit) (n : ℕ) :
    JobState → List (ℕ × ℚ) → List (ℕ × ℚ × α) →
    List JobState × List (ℕ × ℚ × α)
  | st, [], acc =>
      match persist acc with
      | Except.error e => ([errState st e], acc)
      | Except.ok _ => ([completeState st n], acc)
  | st, (i, t) :: rest, acc =>
      let st1 : JobState :=
        { st with
          processed_frames := i + 1,
          progress := 20 + 70 * ((i : ℚ) + 1) / (n : ℚ),
          current_step := "Analyzing frame " ++ toString (i + 1) ++ "/" ++
            toString n ++ " with AI..." }
      match body i t with
      | Except.error e => ([st1, errState st1 e], acc)
      | Except.ok a =>
          let r := analyzeLoop body persist n st1 rest (acc ++ [(i, t, a)])
          (st1 :: r.1, r.2)

/-- Model of `process_video_sync` (main.py lines 77-145).  `extraction` is the
outcome of `analyzer.extract_frames` (its timestamp list), `body` the
outcome of one loop iteration's collaborator calls, `persist` the outcome
of the `json.dump` of the results.  Returns the sequence of job states
the job record passes through (starting from the state created at
upload) and the accumulated per-frame results. -/
def process_video_sync {α : Type} (extraction : Except String (List ℚ))
    (body : ℕ → ℚ → Except String α)
    (persist : List (ℕ × ℚ × α) → Except String Unit) :
    List JobState × List (ℕ × ℚ × α) :=
  match extraction with
  | Except.error e =>
      ([initialStatus, extractingState, errState extractingState e], [])
  | Except.ok ts =>
      let n := ts.length
      if n = 0 then
        ([initialStatus, extractingState, extractedState n,
          { extractedState n with
            status := "error",
            error_message := some "No frames could be extracted from video" }],
         [])
      else
        let analyzingState := { extractedState n with status := "analyzing" }
        let r := analyzeLoop body persist n analyzingState ts.enum []
        ([initialStatus, extractingState, extractedState n, analyzingState]
           ++ r.1, r.2)

/-! ## The upload endpoint (main.py) -/

instance {ε α : Type} [DecidableEq ε] [DecidableEq α] :
    DecidableEq (Except ε α) := fun x y =>
  match x, y with
  | Except.error a, Except.error b =>
      if h : a = b then Decidable.isTrue (by rw [h])
      else Decidable.isFalse (by simp [h])
  | Except.error _, Except.ok _ => Decidable.isFalse (by simp)
  | Except.ok _, Except.error _ => Decidable.isFalse (by simp)
  | Except.ok a, Except.ok b =>
      if h : a = b then Decidable.isTrue (by rw [h])
      else Decidable.isFalse (by simp [h])

/-- Python `str.lower()` on the ASCII alphabet: lowercase every
character.  (Spelled on the character list so that it evaluates by
kernel reduction.) -/
def pyLower (s : String) : String := String.mk (s.data.map Char.toLower)

/-- Python `str.endswith(suffix)`. -/
def pyEndsWith (s suffix : String) : Bool :=
  suffix.data.reverse.isPrefixOf s.data.reverse

/-- The outcome of one `upload_video` request: the HTTP response (an
error status code with detail, or the ok payload's video id), the job
registry after the request, the files saved, and the background tasks
dispatched. -/
structure UploadOutcome where
  response : Except (ℕ × String) String
  registry : List (String × JobState)
  saved_files : List String
  dispatched : List String
deriving DecidableEq, Repr

/-- Model of `upload_video` (main.py lines 184-221).  `videoId` stands for the
generated `uuid4`, `save` for the outcome of copying the upload to disk,
and `registry` for the module-level `processing_status` mapping. -/
def upload_video (filename videoId : String)
    (registry : List (String × JobState)) (save : Except String Unit) :
    UploadOutcome :=
  if ¬ (pyEndsWith (pyLower filename) ".mp4" ∨
        pyEndsWith (pyLower filename) ".mov" ∨
        pyEndsWith (pyLower filename) ".avi") then
    { response := Except.error (400, "Only MP4, MOV, and AVI files are supported"),
      registry := registry, saved_files := [], dispatched := [] }
  else
    match save with
    | Except.error e =>
        { response := Except.error (500, "Error uploading file: " ++ e),
          registry := registry, saved_files := [], dispatched := [] }
    | Except.ok _ =>
        { response := Except.ok videoId,
          registry := registry ++ [(videoId, initialStatus)],
          saved_files := ["uploaded_videos/" ++ videoId ++ "_" ++ filename],
          dispatched := [videoId] }

/-! ## Claim C9 -/

/-- C9: an upload whose filename does not end, case-insensitively, with
".mp4", ".mov" or ".avi" fails with a 400 error before the file is
saved, before any job record is created and before any background task
is dispatched; the registry is unchanged. -/
theorem upload_rejects_bad_extension (filename videoId : String)
    (registry : List (String × JobState)) (save : Except String Unit)
    (h : ¬ (pyEndsWith (pyLower filename) ".mp4" ∨
            pyEndsWith (pyLower filename) ".mov" ∨
            pyEndsWith (pyLower filename) ".avi")) :
    upload_video filename videoId registry save =
      { response := Except.error (400, "Only MP4, MOV, and AVI files are supported"),
        registry := registry, saved_files := [], dispatched := [] } := by
  rw [upload_video.eq_def, if_pos h]

/-- Witness for C9 at the concrete filename "Document.PDF". -/
theorem upload_rejects_bad_extension_witness :
    upload_video "Document.PDF" "id0" [] (Except.ok ()) =
      { response := Except.error (400, "Only MP4, MOV, and AVI files are supported"),
        registry := [], saved_files := [], dispatched := [] } :=
  upload_rejects_bad_extension "Document.PDF" "id0" [] (Except.ok ())
    (by decide)

/-! ## Claim C10 -/

/-- The navigation summary never binds a "risk_level" key. -/
theorem lookup_risk_level_none (a : FrameAnalysis) :
    (get_navigation_summary a).lookup "risk_level" = none := rfl

/-- C10: the per-frame navigation summary contains no 'risk_level' key,
so for every results document the pipeline writes, `get_analysis_text`
reports 0 high-risk and 0 medium-risk moments, and a low-risk count
equal to the number of segments. -/
theorem session_stats_all_low_risk (analyses : List FrameAnalysis) :
    (analyses.map (fun a => (get_navigation_summary a).lookup "risk_level"))
        = analyses.map (fun _ => none) ∧
      session_stats (analyses.map get_navigation_summary)
        = (0, 0, analyses.length) := by
  constructor
  · simp [lookup_risk_level_none]
  · induction analyses with
    | nil => rfl
    | cons a l ih =>
        have hA : riskLevelOf (get_navigation_summary a) = "UNKNOWN" := rfl
        simp only [session_stats, List.map_cons, List.map_map,
          List.count_cons, List.length_cons, List.length_map,
          Prod.mk.injEq, hA] at ih ⊢
        obtain ⟨ih1, ih2, ih3⟩ := ih
        refine ⟨?_, ?_, ?_⟩ <;> simp [ih1, ih2]

/-! ## Claims C2, C3, C4 — the scene-description generator -/

/-- Bounded substring test on strings (via their character lists). -/
def hasSubstringB (s pat : String) : Bool :=
  (List.range (s.data.length + 1)).any
    (fun i => ((s.data.drop i).take pat.data.length) == pat.data)

/-- Counterexample to C2: for detections {person: 3, car: 2} the code
produces "[00:00] Traffic area: 3 people in view, 2 vehicles (car)." —
the scene type is "Traffic area", not "street scene", and the vehicle
clause reads "2 vehicles (car)", not "2 cars". -/
theorem scenario_person3_car2_not_street_scene :
    generate_text_analysis pySetA
        (analyze_frame_result ["person", "person", "person", "car", "car"]) 0
      = "[00:00] Traffic area: 3 people in view, 2 vehicles (car)." ∧
    hasSubstringB
        "[00:00] Traffic area: 3 people in view, 2 vehicles (car)."
        "street scene" = false ∧
    hasSubstringB
        "[00:00] Traffic area: 3 people in view, 2 vehicles (car)."
        "2 cars" = false := by
  refine ⟨?_, by decide, by decide⟩
  simp only [generate_text_analysis, analyze_frame_result, format_time_zero]
  decide

/-- C2 as the code implements it: the scene-type priority rule is
`vehicles present ∧ people > 3 → "Busy street"`, else
`people > 0 ∧ no vehicles → "Pedestrian area"`, else
`vehicles present → "Traffic area"`, else `people > 0 → "Public space"`
(dead: the second branch already covers it), else `"Open area"`; and the
{person: 3, car: 2} scenario yields scene type "Traffic area" with
vehicle clause "2 vehicles (car)". -/
theorem scene_type_priority_rule :
    (∀ (vehicles : List DetObj) (people_count : ℕ),
        vehicles ≠ [] → 3 < people_count →
        sceneTypeOf vehicles people_count = "Busy street") ∧
    (∀ (people_count : ℕ), 0 < people_count →
        sceneTypeOf [] people_count = "Pedestrian area") ∧
    (∀ (vehicles : List DetObj) (people_count : ℕ),
        vehicles ≠ [] → people_count ≤ 3 →
        sceneTypeOf vehicles people_count = "Traffic area") ∧
    sceneTypeOf [] 0 = "Open area" ∧
    (∀ (vehicles : List DetObj) (people_count : ℕ),
        sceneTypeOf vehicles people_count ≠ "Public space") ∧
    generate_text_analysis pySetA
        (analyze_frame_result ["person", "person", "person", "car", "car"]) 0
      = "[00:00] Traffic area: 3 people in view, 2 vehicles (car)." := by
  refine ⟨?_, ?_, ?_, by decide, ?_, ?_⟩
  · intro vehicles people_count h1 h2
    simp [sceneTypeOf, h1, h2]
  · intro people_count h
    simp [sceneTypeOf, h, Nat.not_lt]
  · intro vehicles people_count h1 h2
    simp [sceneTypeOf, h1]
    omega
  · intro vehicles people_count
    unfold sceneTypeOf
    split_ifs with h1 h2 h3 h4 <;> first | decide | (exfalso; tauto)
  · simp only [generate_text_analysis, analyze_frame_result,
      format_time_zero]
    decide

/-- Witness for the amended C2 at concrete inputs. -/
theorem scene_type_priority_rule_witness :
    sceneTypeOf [⟨"car", true, true⟩] 4 = "Busy street" ∧
    sceneTypeOf [] 2 = "Pedestrian area" ∧
    sceneTypeOf [⟨"car", true, true⟩] 3 = "Traffic area" :=
  ⟨scene_type_priority_rule.1 [⟨"car", true, true⟩] 4 (by decide) (by decide),
   scene_type_priority_rule.2.1 2 (by decide),
   scene_type_priority_rule.2.2.1 [⟨"car", true, true⟩] 3 (by decide)
     (by decide)⟩

/-- C3 fails on the code (code bug): `generate_text_analysis` renders
the distinct vehicle classes through `list(set(...))`, whose iteration
order varies across program runs (hash-seeded).  Two set
materialisations that CPython can produce for the same frame — the same
distinct classes, in different orders — give different output strings
for identical inputs. -/
theorem set_order_changes_description :
    (pySetB ["car", "bus"]).Perm (pySetA ["car", "bus"]) ∧
    generate_text_analysis pySetA (analyze_frame_result ["car", "bus"]) 0
      = "[00:00] Traffic area: 2 vehicles (car, bus)." ∧
    generate_text_analysis pySetB (analyze_frame_result ["car", "bus"]) 0
      = "[00:00] Traffic area: 2 vehicles (bus, car)." ∧
    generate_text_analysis pySetA (analyze_frame_result ["car", "bus"]) 0
      ≠ generate_text_analysis pySetB (analyze_frame_result ["car", "bus"]) 0 := by
  refine ⟨by decide, ?_, ?_, ?_⟩ <;>
    simp only [generate_text_analysis, analyze_frame_result,
      format_time_zero] <;>
    decide

/-- Counterexample to C4: a nonempty detection list that produces no
description clauses (one "dog", a class outside `navigation_classes`)
receives the very same "Clear view ahead" fallback as the empty
detection list — not a different fixed fallback string. -/
theorem non_nav_detections_get_clear_view_fallback :
    (analyze_frame_result ["dog"]).detected_objects ≠ [] ∧
    generate_text_analysis pySetA (analyze_frame_result ["dog"]) 0
      = "[00:00] Clear view ahead with minimal activity." ∧
    generate_text_analysis pySetA (analyze_frame_result []) 0
      = "[00:00] Clear view ahead with minimal activity." := by
  refine ⟨by decide, ?_, ?_⟩ <;>
    simp only [generate_text_analysis, analyze_frame_result,
      format_time_zero] <;>
    decide

/-- C4 as the code implements it: the branch condition is
navigation-relevance, not emptiness of the detection list.  When no
navigation-relevant detection exists (in particular when the detection
list is empty) the description is the "Clear view ahead with minimal
activity." fallback; when navigation-relevant detections exist but none
belongs to a clause-producing category the description is the distinct
"Open area with minimal activity." fallback. -/
theorem fallback_strings (pySet : List String → List String)
    (analysis : FrameAnalysis) (t : ℚ) :
    (analysis.detected_objects.filter (fun o => o.navigation_relevant) = [] →
      generate_text_analysis pySet analysis t
        = "[" ++ format_time t ++ "] Clear view ahead with minimal activity.") ∧
    (analysis.detected_objects.filter (fun o => o.navigation_relevant) ≠ [] →
     analysis.detected_objects.filter (fun o => o.className == "person") = [] →
     analysis.detected_objects.filter
        (fun o => vehicle_class_names.contains o.className) = [] →
     analysis.detected_objects.filter (fun o => o.className == "bicycle") = [] →
     analysis.detected_objects.filter
        (fun o => traffic_signal_class_names.contains o.className) = [] →
      generate_text_analysis pySet analysis t
        = "[" ++ format_time t ++ "] Open area with minimal activity.") ∧
    generate_text_analysis pySetA (analyze_frame_result ["bench"]) 0
      ≠ generate_text_analysis pySetA (analyze_frame_result []) 0 := by
  refine ⟨?_, ?_, ?_⟩
  · intro h
    simp only [generate_text_analysis, h]
    rfl
  · intro hnav hp hv hb hs
    simp only [generate_text_analysis, hp, hv, hb, hs]
    rw [if_neg hnav]
    simp [sceneTypeOf, String.append_assoc]
  · simp only [generate_text_analysis, analyze_frame_result,
      format_time_zero]
    decide

/-- Witness for the amended C4 at concrete inputs. -/
theorem fallback_strings_witness :
    generate_text_analysis pySetA (analyze_frame_result ["dog"]) 0
      = "[" ++ format_time 0 ++ "] Clear view ahead with minimal activity." ∧
    generate_text_analysis pySetA (analyze_frame_result ["bench"]) 0
      = "[" ++ format_time 0 ++ "] Open area with minimal activity." :=
  ⟨(fallback_strings pySetA (analyze_frame_result ["dog"]) 0).1 (by decide),
   (fallback_strings pySetA (analyze_frame_result ["bench"]) 0).2.1
     (by decide) (by decide) (by decide) (by decide) (by decide)⟩

/-! ## Claim C1 — the frame-extraction cadence -/

/-- Counting the multiples of `s` below `N`. -/
theorem length_filter_mod_eq (s : ℕ) (hs : 0 < s) (N : ℕ) :
    ((List.range N).filter (fun k => k % s == 0)).length
      = (N + s - 1) / s := by
  induction N with
  | zero =>
      simp [Nat.div_eq_of_lt (show s - 1 < s by omega)]
  | succ n ih =>
      rw [List.range_succ, List.filter_append, List.length_append, ih]
      have h1 := Nat.succ_div (n + s - 1) s
      have h2 : n + s - 1 + 1 = n + s := by omega
      rw [h2] at h1
      simp only [Nat.dvd_add_self_right] at h1
      have harr : n + 1 + s - 1 = n + s := by omega
      rw [harr, h1]
      by_cases hmod : n % s = 0
      · have hd : s ∣ n := Nat.dvd_iff_mod_eq_zero.mpr hmod
        have hb : (n % s == 0) = true := by simpa using hmod
        simp [List.filter, hb, hd]
      · have hd : ¬ s ∣ n := fun hc => hmod (Nat.dvd_iff_mod_eq_zero.mp hc)
        have hb : (n % s == 0) = false := by simpa using hmod
        simp [List.filter, hb, hd]

/-- The integer-modulo filter of the source equals a natural-number
modulo filter once the stride is positive. -/
theorem filter_mod_int_eq (N : ℕ) (m : ℤ) (hm : 1 ≤ m) :
    (List.range N).filter (fun (k : ℕ) => (k : ℤ) % m == 0)
      = (List.range N).filter (fun k => k % m.toNat == 0) := by
  apply List.filter_congr
  intro k _
  have hm0 : ((m.toNat : ℤ)) = m := Int.toNat_of_nonneg (by omega)
  rw [Bool.eq_iff_iff]
  simp only [beq_iff_eq]
  rw [← hm0, ← Int.natCast_mod]
  exact Int.natCast_eq_zero

/-- A nodup list of naturals containing 0, mapped through division by a
positive rational, contains the value 0 exactly once. -/
theorem count_zero_div_map (f : ℚ) (hf : 0 < f) :
    ∀ (l : List ℕ), 0 ∈ l → l.Nodup →
      (l.map (fun (k : ℕ) => (k : ℚ) / f)).count 0 = 1 := by
  intro l
  induction l with
  | nil => intro h; simp at h
  | cons a t ih =>
      intro h0 hnd
      have hne : ∀ k : ℕ, k ≠ 0 → ((k : ℚ) / f) ≠ 0 := by
        intro k hk
        exact div_ne_zero (Nat.cast_ne_zero.mpr hk) (ne_of_gt hf)
      rcases List.mem_cons.mp h0 with h0a | h0t
      · have hz : ((a : ℚ) / f) = 0 := by
          rw [← h0a]; simp
        have hnt : (0 : ℕ) ∉ t := by
          rw [← h0a] at hnd
          exact (List.nodup_cons.mp hnd).1
        have ht0 : (t.map (fun (k : ℕ) => (k : ℚ) / f)).count 0 = 0 := by
          rw [List.count_eq_zero]
          intro hc
          rcases List.mem_map.mp hc with ⟨k, hk, hke⟩
          rcases Nat.eq_zero_or_pos k with rfl | hkp
          · exact hnt hk
          · exact hne k (Nat.pos_iff_ne_zero.mp hkp) hke
        simp [List.count_cons, ht0, hz]
      · have ha : a ≠ 0 := by
          rintro rfl
          exact (List.nodup_cons.mp hnd).1 h0t
        have hz : ¬ ((a : ℚ) / f) = (0 : ℚ) := hne a ha
        have := ih h0t (List.nodup_cons.mp hnd).2
        simp [List.count_cons, this, Ne.symm hz, hz]

/-- Counterexample to C1: at frame rate 30 and interval 0.09 s the code's
stride is `int(30 × 0.09) = int(2.7) = 2`, not `round(2.7) = 3`, so a
30-frame source yields 15 frames where the claim predicts
`⌈30/3⌉ = 10`. -/
theorem stride_is_truncation_not_rounding :
    pyInt ((30 : ℚ) * (9/100)) = 2 ∧
    claimedStride 30 (9/100) = 3 ∧
    (extract_frames ⟨30, 30⟩ (9/100)).map (fun p => p.1.length)
      = Except.ok 15 ∧
    claimedFrameCount 30 30 (9/100) = 10 := by
  have h2 : pyInt ((30 : ℚ) * (9/100)) = 2 := by norm_num [pyInt]
  have h3 : pyRound ((30 : ℚ) * (9/100)) = 3 := by norm_num [pyRound]
  refine ⟨h2, ?_, ?_, ?_⟩
  · rw [claimedStride, h3]; rfl
  · simp only [extract_frames, h2]
    norm_num [Except.map]
    decide
  · simp only [claimedFrameCount, claimedStride, h3]
    norm_num

/-- C1 as the code implements it: for an openable source with positive
frame rate and an interval whose stride `int(fps × interval)` is at
least 1, extraction succeeds and emits exactly the source frames whose
index is a multiple of that truncated stride, in increasing index order,
with timestamps `index / fps`; the number of emitted frames is
`⌈N / int(fps × interval)⌉` (written `(N + s - 1) / s`), and a nonempty
source yields exactly one frame at timestamp 0. -/
theorem extract_frames_spec (src : VideoSource) (i : ℚ)
    (hf : 0 < src.fps) (hs : 1 ≤ pyInt (src.fps * i)) :
    (extract_frames src i).isOk = true ∧
    (∀ idxs ts, extract_frames src i = Except.ok (idxs, ts) →
      (∀ k : ℕ, k ∈ idxs ↔
        (k < src.total_frames ∧ (pyInt (src.fps * i)).toNat ∣ k)) ∧
      List.Pairwise (· < ·) idxs ∧
      ts = idxs.map (fun (k : ℕ) => (k : ℚ) / src.fps) ∧
      idxs.length = (src.total_frames + (pyInt (src.fps * i)).toNat - 1)
          / (pyInt (src.fps * i)).toNat ∧
      (0 < src.total_frames → ts.count 0 = 1)) := by
  have hfz : ¬ src.fps = 0 := ne_of_gt hf
  have hmz : ¬ pyInt (src.fps * i) = 0 := by omega
  have hsp : 0 < (pyInt (src.fps * i)).toNat := by omega
  have hres : extract_frames src i = Except.ok
      (((List.range src.total_frames).filter
          (fun (k : ℕ) => (k : ℤ) % pyInt (src.fps * i) == 0)),
        ((List.range src.total_frames).filter
          (fun (k : ℕ) => (k : ℤ) % pyInt (src.fps * i) == 0)).map
          (fun (k : ℕ) => (k : ℚ) / src.fps)) := by
    rw [extract_frames.eq_def]
    rw [if_neg hfz]
    simp only [if_neg hmz]
  refine ⟨by rw [hres]; rfl, ?_⟩
  intro idxs ts hok
  rw [hres] at hok
  injection hok with hok
  injection hok with hidx hts
  have hfilter := filter_mod_int_eq src.total_frames (pyInt (src.fps * i)) hs
  subst hidx
  subst hts
  constructor
  · intro k
    rw [hfilter, List.mem_filter, List.mem_range]
    constructor
    · rintro ⟨hk, hmod⟩
      exact ⟨hk, Nat.dvd_iff_mod_eq_zero.mpr (by simpa using hmod)⟩
    · rintro ⟨hk, hdvd⟩
      exact ⟨hk, by simpa using Nat.dvd_iff_mod_eq_zero.mp hdvd⟩
  refine ⟨(List.pairwise_lt_range _).filter _, rfl, ?_, ?_⟩
  · rw [hfilter, length_filter_mod_eq _ hsp]
  · intro hN
    apply count_zero_div_map src.fps hf
    · rw [hfilter, List.mem_filter]
      exact ⟨List.mem_range.mpr hN, by simp⟩
    · exact (List.nodup_range _).filter _

/-- Witness for the amended C1 at a 30-frame, 30 fps source sampled
every second. -/
theorem extract_frames_spec_witness :
    (extract_frames ⟨30, 30⟩ 1).isOk = true ∧
    ([0] : List ℕ).length = (30 + 30 - 1) / 30 := by
  have hpy : pyInt ((30 : ℚ) * 1) = 30 := by norm_num [pyInt]
  have h := extract_frames_spec ⟨30, 30⟩ 1 (by norm_num) (by rw [hpy]; norm_num)
  refine ⟨h.1, ?_⟩
  have hok : extract_frames ⟨30, 30⟩ 1 = Except.ok ([0], [0]) := by
    simp only [extract_frames, hpy]
    norm_num
    constructor
    · decide
    · rw [show ((List.range 30).filter
          (fun (k : ℕ) => (k : ℤ) % 30 == 0)) = [0] by decide]
      norm_num
  have h2 := (h.2 [0] [0] hok).2.2.2.1
  rw [hpy] at h2
  simpa using h2

/-! ## Invariants of the analysis loop (main.py lines 100-145) -/

/-- The state invariant every job state reached inside the analysis loop
satisfies. -/
def Inv (n : ℕ) (s : JobState) : Prop :=
  s.total_frames = n ∧ s.processed_frames ≤ n ∧
  0 ≤ s.progress ∧ s.progress ≤ 100 ∧
  (s.status = "error" ↔ s.error_message ≠ none) ∧
  (s.status = "analyzing" → s.error_message = none ∧
    s.progress = 20 + 70 * (s.processed_frames : ℚ) / (n : ℚ)) ∧
  (s.status = "complete" → s.progress = 100 ∧ s.error_message = none) ∧
  (s.status = "analyzing" ∨ s.status = "error" ∨ s.status = "complete")

theorem inv_errState (n : ℕ) (st : JobState) (e : String)
    (htot : st.total_frames = n) (hproc : st.processed_frames ≤ n)
    (h0 : 0 ≤ st.progress) (h100 : st.progress ≤ 100) :
    Inv n (errState st e) := by
  refine ⟨htot, hproc, h0, h100, ?_, ?_, ?_, ?_⟩ <;>
    simp [errState]

theorem inv_completeState (n : ℕ) (st : JobState)
    (htot : st.total_frames = n) (hproc : st.processed_frames ≤ n)
    (hmsg : st.error_message = none) :
    Inv n (completeState st n) := by
  refine ⟨htot, hproc, ?_, ?_, ?_, ?_, ?_, ?_⟩ <;>
    simp [completeState, hmsg] <;> norm_num

/-- The progress value written for the (i+1)-st processed frame lies in
[0, 100] whenever i+1 ≤ n. -/
theorem loop_progress_bounds (n i : ℕ) (hn : 0 < n) (hi : i + 1 ≤ n) :
    0 ≤ 20 + 70 * ((i : ℚ) + 1) / (n : ℚ) ∧
      20 + 70 * ((i : ℚ) + 1) / (n : ℚ) ≤ 100 := by
  have hnq : (0 : ℚ) < n := by exact_mod_cast hn
  have h1 : ((i : ℚ) + 1) / n ≤ 1 := by
    rw [div_le_one hnq]
    exact_mod_cast hi
  have h2 : (0 : ℚ) ≤ ((i : ℚ) + 1) / n := by positivity
  constructor <;> rw [mul_div_assoc] <;> nlinarith

/-- Every state the analysis loop reaches satisfies `Inv`. -/
theorem analyzeLoop_inv {α : Type} (body : ℕ → ℚ → Except String α)
    (persist : List (ℕ × ℚ × α) → Except String Unit) (n : ℕ) (hn : 0 < n) :
    ∀ (ts' : List ℚ) (i0 : ℕ) (st : JobState) (acc : List (ℕ × ℚ × α)),
      st.status = "analyzing" → st.error_message = none →
      st.total_frames = n → st.processed_frames = i0 →
      i0 + ts'.length ≤ n →
      st.progress = 20 + 70 * (i0 : ℚ) / (n : ℚ) →
      ∀ s ∈ (analyzeLoop body persist n st (List.enumFrom i0 ts') acc).1,
        Inv n s := by
  intro ts'
  induction ts' with
  | nil =>
      intro i0 st acc hst hmsg htot hproc hlen hprog s hs
      have hb : 0 ≤ st.progress ∧ st.progress ≤ 100 := by
        rw [hprog]
        have hnq : (0 : ℚ) < n := by exact_mod_cast hn
        have h1 : (i0 : ℚ) / n ≤ 1 := by
          rw [div_le_one hnq]
          exact_mod_cast (show i0 ≤ n by omega)
        have h2 : (0 : ℚ) ≤ (i0 : ℚ) / n := by positivity
        constructor <;> rw [mul_div_assoc] <;> nlinarith
      have hpn : st.processed_frames ≤ n := by omega
      simp only [List.enumFrom, analyzeLoop] at hs
      cases hp : persist acc with
      | error e =>
          rw [hp] at hs
          simp only [List.mem_singleton] at hs
          subst hs
          exact inv_errState n st e htot hpn hb.1 hb.2
      | ok u =>
          rw [hp] at hs
          simp only [List.mem_singleton] at hs
          subst hs
          exact inv_completeState n st htot hpn hmsg
  | cons t rest ih =>
      intro i0 st acc hst hmsg htot hproc hlen hprog s hs
      simp only [List.enumFrom, analyzeLoop] at hs
      set st1 : JobState :=
        { st with
          processed_frames := i0 + 1,
          progress := 20 + 70 * ((i0 : ℚ) + 1) / (n : ℚ),
          current_step := "Analyzing frame " ++ toString (i0 + 1) ++ "/" ++
            toString n ++ " with AI..." } with hst1
      have hi1 : i0 + 1 ≤ n := by
        simp only [List.length_cons] at hlen
        omega
      have hb := loop_progress_bounds n i0 hn hi1
      have hinv1 : Inv n st1 := by
        refine ⟨htot, by simp [hst1]; omega, hb.1, hb.2, ?_, ?_, ?_, ?_⟩
        · simp [hst1, hst, hmsg]
        · intro _
          refine ⟨by simp [hst1, hmsg], ?_⟩
          simp [hst1]
          try push_cast
          try ring
        · intro hc
          rw [show st1.status = st.status from rfl, hst] at hc
          exact absurd hc (by decide)
        · exact Or.inl (by simp [hst1, hst])
      cases hbody : body i0 t with
      | error e =>
          rw [hbody] at hs
          simp only [List.mem_cons, List.mem_singleton, List.not_mem_nil,
            or_false] at hs
          rcases hs with hs | hs
          · subst hs; exact hinv1
          · subst hs
            exact inv_errState n st1 e htot (by simp [hst1]; omega)
              hb.1 hb.2
      | ok a =>
          rw [hbody] at hs
          simp only [List.mem_cons] at hs
          rcases hs with hs | hs
          · subst hs; exact hinv1
          · exact ih (i0 + 1) st1 (acc ++ [(i0, t, a)])
              (by simp [hst1, hst]) (by simp [hst1, hmsg]) htot
              (by simp [hst1])
              (by simp only [List.length_cons] at hlen; omega)
              (by simp only [hst1]; push_cast; ring) s hs

/-- The progress values along the loop trace are non-decreasing,
starting from the entry state's progress. -/
theorem analyzeLoop_chain {α : Type} (body : ℕ → ℚ → Except String α)
    (persist : List (ℕ × ℚ × α) → Except String Unit) (n : ℕ) (hn : 0 < n) :
    ∀ (ts' : List ℚ) (i0 : ℕ) (st : JobState) (acc : List (ℕ × ℚ × α)),
      st.total_frames = n → st.processed_frames = i0 →
      i0 + ts'.length ≤ n →
      st.progress = 20 + 70 * (i0 : ℚ) / (n : ℚ) →
      List.Chain (· ≤ ·) st.progress
        ((analyzeLoop body persist n st (List.enumFrom i0 ts') acc).1.map
          JobState.progress) := by
  intro ts'
  induction ts' with
  | nil =>
      intro i0 st acc htot hproc hlen hprog
      have hb : st.progress ≤ 100 := by
        rw [hprog]
        have hnq : (0 : ℚ) < n := by exact_mod_cast hn
        have h1 : (i0 : ℚ) / n ≤ 1 := by
          rw [div_le_one hnq]
          exact_mod_cast (show i0 ≤ n by omega)
        rw [mul_div_assoc]
        nlinarith
      simp only [List.enumFrom, analyzeLoop]
      cases hp : persist acc with
      | error e =>
          simp only [List.map_cons, List.map_nil]
          exact List.Chain.cons (le_of_eq rfl) List.Chain.nil
      | ok u =>
          simp only [List.map_cons, List.map_nil]
          refine List.Chain.cons ?_ List.Chain.nil
          calc st.progress ≤ 100 := hb
            _ = (completeState st n).progress := rfl
  | cons t rest ih =>
      intro i0 st acc htot hproc hlen hprog
      simp only [List.enumFrom, analyzeLoop]
      have hi1 : i0 + 1 ≤ n := by
        simp only [List.length_cons] at hlen
        omega
      have hnq : (0 : ℚ) < n := by exact_mod_cast hn
      have hstep : st.progress ≤ 20 + 70 * ((i0 : ℚ) + 1) / (n : ℚ) := by
        rw [hprog]
        have h70 : (70 : ℚ) * (i0 : ℚ) / n ≤ 70 * ((i0 : ℚ) + 1) / n :=
          (div_le_div_iff_of_pos_right hnq).mpr (by linarith)
        linarith
      cases hbody : body i0 t with
      | error e =>
          simp only [List.map_cons, List.map_nil]
          exact List.Chain.cons hstep
            (List.Chain.cons (le_of_eq rfl) List.Chain.nil)
      | ok a =>
          simp only [List.map_cons]
          refine List.Chain.cons hstep ?_
          exact ih (i0 + 1)
            { st with
              processed_frames := i0 + 1,
              progress := 20 + 70 * ((i0 : ℚ) + 1) / (n : ℚ),
              current_step := "Analyzing frame " ++ toString (i0 + 1) ++
                "/" ++ toString n ++ " with AI..." }
            (acc ++ [(i0, t, a)]) htot rfl
            (by simp only [List.length_cons] at hlen; omega)
            (by push_cast; ring)

/-- The loop trace is a block of "analyzing" states closed by one
terminal state ("error" or "complete"). -/
theorem analyzeLoop_shape {α : Type} (body : ℕ → ℚ → Except String α)
    (persist : List (ℕ × ℚ × α) → Except String Unit) (n : ℕ) :
    ∀ (ts' : List ℚ) (i0 : ℕ) (st : JobState) (acc : List (ℕ × ℚ × α)),
      st.status = "analyzing" →
      ∃ mid lastSt,
        (analyzeLoop body persist n st (List.enumFrom i0 ts') acc).1
            = mid ++ [lastSt] ∧
          (∀ s ∈ mid, s.status = "analyzing") ∧
          (lastSt.status = "error" ∨ lastSt.status = "complete") := by
  intro ts'
  induction ts' with
  | nil =>
      intro i0 st acc hst
      simp only [List.enumFrom, analyzeLoop]
      cases hp : persist acc with
      | error e =>
          exact ⟨[], errState st e, rfl, by simp, Or.inl rfl⟩
      | ok u =>
          exact ⟨[], completeState st n, rfl, by simp, Or.inr rfl⟩
  | cons t rest ih =>
      intro i0 st acc hst
      simp only [List.enumFrom, analyzeLoop]
      cases hbody : body i0 t with
      | error e =>
          refine ⟨[{ st with
              processed_frames := i0 + 1,
              progress := 20 + 70 * ((i0 : ℚ) + 1) / (n : ℚ),
              current_step := "Analyzing frame " ++ toString (i0 + 1) ++
                "/" ++ toString n ++ " with AI..." }], _, rfl, ?_, Or.inl rfl⟩
          intro s hs
          simp only [List.mem_singleton] at hs
          subst hs
          exact hst
      | ok a =>
          obtain ⟨mid, lastSt, heq, hmid, hlast⟩ :=
            ih (i0 + 1)
              { st with
                processed_frames := i0 + 1,
                progress := 20 + 70 * ((i0 : ℚ) + 1) / (n : ℚ),
                current_step := "Analyzing frame " ++ toString (i0 + 1) ++
                  "/" ++ toString n ++ " with AI..." }
              (acc ++ [(i0, t, a)]) hst
          refine ⟨{ st with
              processed_frames := i0 + 1,
              progress := 20 + 70 * ((i0 : ℚ) + 1) / (n : ℚ),
              current_step := "Analyzing frame " ++ toString (i0 + 1) ++
                "/" ++ toString n ++ " with AI..." } :: mid, lastSt, ?_, ?_,
            hlast⟩
          · simp only [heq, List.cons_append]
          · intro s hs
            rcases List.mem_cons.mp hs with hs | hs
            · subst hs; exact hst
            · exact hmid s hs

/-- The processed-frame counters of the loop's "analyzing" states count
up by one from `i0 + 1`. -/
theorem analyzeLoop_processed {α : Type} (body : ℕ → ℚ → Except String α)
    (persist : List (ℕ × ℚ × α) → Except String Unit) (n : ℕ) :
    ∀ (ts' : List ℚ) (i0 : ℕ) (st : JobState) (acc : List (ℕ × ℚ × α)),
      st.status = "analyzing" →
      ∃ j, j ≤ ts'.length ∧
        (((analyzeLoop body persist n st (List.enumFrom i0 ts') acc).1.filter
            (fun s => s.status == "analyzing")).map JobState.processed_frames)
          = List.range' (i0 + 1) j := by
  intro ts'
  induction ts' with
  | nil =>
      intro i0 st acc hst
      refine ⟨0, le_refl 0, ?_⟩
      simp only [List.enumFrom, analyzeLoop]
      cases hp : persist acc with
      | error e => simp [errState]
      | ok u => simp [completeState]
  | cons t rest ih =>
      intro i0 st acc hst
      simp only [List.enumFrom, analyzeLoop]
      cases hbody : body i0 t with
      | error e =>
          refine ⟨1, by simp, ?_⟩
          simp [errState, List.range', hst]
      | ok a =>
          obtain ⟨j, hj, heq⟩ := ih (i0 + 1)
            { st with
              processed_frames := i0 + 1,
              progress := 20 + 70 * ((i0 : ℚ) + 1) / (n : ℚ),
              current_step := "Analyzing frame " ++ toString (i0 + 1) ++
                "/" ++ toString n ++ " with AI..." }
            (acc ++ [(i0, t, a)]) hst
          refine ⟨j + 1, by simpa using hj, ?_⟩
          simp only [List.filter_cons]
          rw [if_pos (by simp [hst])]
          simp only [List.map_cons, heq, List.range']

/-- The per-frame results the loop accumulates extend `acc` by an
initial segment of the iterated (index, timestamp) list. -/
theorem analyzeLoop_results {α : Type} (body : ℕ → ℚ → Except String α)
    (persist : List (ℕ × ℚ × α) → Except String Unit) (n : ℕ) :
    ∀ (l : List (ℕ × ℚ)) (st : JobState) (acc : List (ℕ × ℚ × α)),
      ∃ k, ((analyzeLoop body persist n st l acc).2).map
          (fun r => (r.1, r.2.1))
        = acc.map (fun r => (r.1, r.2.1)) ++ l.take k := by
  intro l
  induction l with
  | nil =>
      intro st acc
      refine ⟨0, ?_⟩
      simp only [analyzeLoop]
      cases hp : persist acc with
      | error e => simp
      | ok u => simp
  | cons p rest ih =>
      intro st acc
      obtain ⟨i, t⟩ := p
      simp only [analyzeLoop]
      cases hbody : body i t with
      | error e =>
          exact ⟨0, by simp⟩
      | ok a =>
          obtain ⟨k, hk⟩ := ih
            { st with
              processed_frames := i + 1,
              progress := 20 + 70 * ((i : ℚ) + 1) / (n : ℚ),
              current_step := "Analyzing frame " ++ toString (i + 1) ++
                "/" ++ toString n ++ " with AI..." }
            (acc ++ [(i, t, a)])
          refine ⟨k + 1, ?_⟩
          rw [hk]
          simp [List.take_succ_cons]

/-- Unfolding `process_video_sync` on a failed extraction. -/
theorem process_video_sync_err {α : Type} (e : String)
    (body : ℕ → ℚ → Except String α)
    (persist : List (ℕ × ℚ × α) → Except String Unit) :
    process_video_sync (Except.error e) body persist
      = ([initialStatus, extractingState, errState extractingState e], []) :=
  rfl

/-- Unfolding `process_video_sync` on an empty extraction. -/
theorem process_video_sync_nil {α : Type} (body : ℕ → ℚ → Except String α)
    (persist : List (ℕ × ℚ × α) → Except String Unit) :
    process_video_sync (Except.ok []) body persist
      = ([initialStatus, extractingState, extractedState 0,
          { extractedState 0 with
            status := "error",
            error_message := some "No frames could be extracted from video" }],
         []) :=
  rfl

/-- Unfolding `process_video_sync` on a nonempty extraction. -/
theorem process_video_sync_pos {α : Type} (body : ℕ → ℚ → Except String α)
    (persist : List (ℕ × ℚ × α) → Except String Unit) (ts : List ℚ)
    (hn : ts.length ≠ 0) :
    process_video_sync (Except.ok ts) body persist
      = ([initialStatus, extractingState, extractedState ts.length,
          { extractedState ts.length with status := "analyzing" }]
           ++ (analyzeLoop body persist ts.length
                { extractedState ts.length with status := "analyzing" }
                (List.enumFrom 0 ts) []).1,
         (analyzeLoop body persist ts.length
            { extractedState ts.length with status := "analyzing" }
            (List.enumFrom 0 ts) []).2) := by
  simp only [process_video_sync, if_neg hn]
  rfl

/-- The entry state of the analysis loop. -/
theorem analyzing_entry_fields (n : ℕ) :
    ({ extractedState n with status := "analyzing" } : JobState).status
        = "analyzing" ∧
      ({ extractedState n with status := "analyzing" } : JobState).progress
          = 20 ∧
      ({ extractedState n with status := "analyzing" } :
          JobState).total_frames = n ∧
      ({ extractedState n with status := "analyzing" } :
          JobState).processed_frames = 0 ∧
      ({ extractedState n with status := "analyzing" } :
          JobState).error_message = none := by
  simp [extractedState, extractingState, initialStatus]

/-! ## Claim C7 -/

/-- C7: over the observable sequence of job states of one processing
run, progress is non-decreasing, and processedFrames never exceeds
totalFrames. -/
theorem progress_monotone_and_counters {α : Type}
    (extraction : Except String (List ℚ)) (body : ℕ → ℚ → Except String α)
    (persist : List (ℕ × ℚ × α) → Except String Unit) :
    List.Chain' (· ≤ ·)
        ((process_video_sync extraction body persist).1.map
          JobState.progress) ∧
      ∀ s ∈ (process_video_sync extraction body persist).1,
        s.processed_frames ≤ s.total_frames := by
  cases extraction with
  | error e =>
      rw [process_video_sync_err]
      constructor
      · simp only [List.map_cons, List.map_nil]
        refine List.chain'_cons.mpr ⟨?_, List.chain'_cons.mpr ⟨?_, ?_⟩⟩ <;>
          simp [initialStatus, extractingState, errState] <;> norm_num
      · intro s hs
        simp only [List.mem_cons, List.not_mem_nil, or_false] at hs
        rcases hs with rfl | rfl | rfl <;>
          simp [initialStatus, extractingState, errState]
  | ok ts =>
      by_cases hn : ts.length = 0
      · rw [List.length_eq_zero] at hn
        subst hn
        rw [process_video_sync_nil]
        constructor
        · simp only [List.map_cons, List.map_nil]
          refine List.chain'_cons.mpr ⟨?_, List.chain'_cons.mpr ⟨?_,
            List.chain'_cons.mpr ⟨?_, ?_⟩⟩⟩ <;>
            simp [initialStatus, extractingState, extractedState] <;>
            norm_num
        · intro s hs
          simp only [List.mem_cons, List.not_mem_nil, or_false] at hs
          rcases hs with rfl | rfl | rfl | rfl <;>
            simp [initialStatus, extractingState, extractedState]
      · have hn' : 0 < ts.length := Nat.pos_of_ne_zero hn
        rw [process_video_sync_pos body persist ts hn]
        obtain ⟨hA1, hA2, hA3, hA4, hA5⟩ := analyzing_entry_fields ts.length
        have hchain := analyzeLoop_chain body persist ts.length hn' ts 0
          { extractedState ts.length with status := "analyzing" } []
          hA3 hA4 (by omega) (by rw [hA2]; norm_num)
        have hinv := analyzeLoop_inv body persist ts.length hn' ts 0
          { extractedState ts.length with status := "analyzing" } []
          hA1 hA5 hA3 hA4 (by omega) (by rw [hA2]; norm_num)
        constructor
        · rw [List.map_append]
          simp only [List.map_cons, List.map_nil]
          refine List.chain'_cons.mpr ⟨?_, List.chain'_cons.mpr ⟨?_,
            List.chain'_cons.mpr ⟨?_, ?_⟩⟩⟩
          · simp [initialStatus, extractingState]
            try norm_num
          · simp [extractingState, extractedState, initialStatus]
            try norm_num
          · simp [extractedState]
          · show List.Chain (· ≤ ·) _ _
            rw [show ({ extractedState ts.length with
                status := "analyzing" } : JobState).progress = 20 from hA2]
              at hchain
            exact hchain
        · intro s hs
          rw [List.mem_append] at hs
          rcases hs with hs | hs
          · simp only [List.mem_cons, List.not_mem_nil, or_false] at hs
            rcases hs with rfl | rfl | rfl | rfl <;>
              simp [initialStatus, extractingState, extractedState]
          · have := hinv s hs
            rw [show ts.length = s.total_frames from this.1.symm] at this
            exact this.2.1

/-- Witness for C7 at a concrete failed-extraction run. -/
theorem progress_monotone_and_counters_witness :
    List.Chain' (· ≤ ·)
        ((process_video_sync (α := Unit) (Except.error "open failed")
            (fun _ _ => Except.ok ()) (fun _ => Except.ok ())).1.map
          JobState.progress) ∧
      (errState extractingState "open failed").processed_frames
        ≤ (errState extractingState "open failed").total_frames :=
  ⟨(progress_monotone_and_counters (Except.error "open failed")
      (fun _ _ => Except.ok ()) (fun _ => Except.ok ())).1,
   (progress_monotone_and_counters (Except.error "open failed")
      (fun _ _ => Except.ok ()) (fun _ => Except.ok ())).2
     (errState extractingState "open failed")
     (by rw [process_video_sync_err]; simp)⟩

/-! ## Claim C6 -/

/-- C6: any failure during extraction or analysis is recorded as
status "error" with an error message, an error state is the last
observable state of the run (the loop stops), a "complete" state can
only be the last state, and in every observable state the error message
is present exactly when the status is "error"; consequently no run that
errors ever shows a "complete" state. -/
theorem error_is_terminal_and_flagged {α : Type}
    (extraction : Except String (List ℚ)) (body : ℕ → ℚ → Except String α)
    (persist : List (ℕ × ℚ × α) → Except String Unit) :
    (∀ s ∈ (process_video_sync extraction body persist).1,
        s.status = "error" ↔ s.error_message ≠ none) ∧
    (∀ s ∈ (process_video_sync extraction body persist).1,
        s.status = "error" →
        (process_video_sync extraction body persist).1.getLast? = some s) ∧
    (∀ s ∈ (process_video_sync extraction body persist).1,
        s.status = "complete" →
        (process_video_sync extraction body persist).1.getLast? = some s) ∧
    ((∃ s ∈ (process_video_sync extraction body persist).1,
        s.status = "error") →
      ∀ s ∈ (process_video_sync extraction body persist).1,
        s.status ≠ "complete") := by
  have key :
      (∀ s ∈ (process_video_sync extraction body persist).1,
          s.status = "error" ↔ s.error_message ≠ none) ∧
      (∀ s ∈ (process_video_sync extraction body persist).1,
          s.status = "error" →
          (process_video_sync extraction body persist).1.getLast?
            = some s) ∧
      (∀ s ∈ (process_video_sync extraction body persist).1,
          s.status = "complete" →
          (process_video_sync extraction body persist).1.getLast?
            = some s) := by
    cases extraction with
    | error e =>
        rw [process_video_sync_err]
        refine ⟨?_, ?_, ?_⟩ <;>
          (intro s hs
           simp only [List.mem_cons, List.not_mem_nil, or_false] at hs
           rcases hs with rfl | rfl | rfl) <;>
          simp [initialStatus, extractingState, errState, List.getLast?]
    | ok ts =>
        by_cases hn : ts.length = 0
        · rw [List.length_eq_zero] at hn
          subst hn
          rw [process_video_sync_nil]
          refine ⟨?_, ?_, ?_⟩ <;>
            (intro s hs
             simp only [List.mem_cons, List.not_mem_nil, or_false] at hs
             rcases hs with rfl | rfl | rfl | rfl) <;>
            simp [initialStatus, extractingState, extractedState,
              List.getLast?]
        · have hn' : 0 < ts.length := Nat.pos_of_ne_zero hn
          rw [process_video_sync_pos body persist ts hn]
          obtain ⟨hA1, hA2, hA3, hA4, hA5⟩ := analyzing_entry_fields ts.length
          obtain ⟨mid, lastSt, hsplit, hmid, hlast⟩ :=
            analyzeLoop_shape body persist ts.length ts 0
              { extractedState ts.length with status := "analyzing" } [] hA1
          have hinv := analyzeLoop_inv body persist ts.length hn' ts 0
            { extractedState ts.length with status := "analyzing" } []
            hA1 hA5 hA3 hA4 (by omega) (by rw [hA2]; norm_num)
          have hinv' : ∀ s ∈ mid ++ [lastSt], Inv ts.length s := by
            intro s hs
            exact hinv s (by rw [hsplit]; exact hs)
          rw [hsplit]
          have hgetlast :
              ([initialStatus, extractingState, extractedState ts.length,
                { extractedState ts.length with status := "analyzing" }]
                  ++ (mid ++ [lastSt])).getLast? = some lastSt := by
            rw [← List.append_assoc]
            exact List.getLast?_concat _
          refine ⟨?_, ?_, ?_⟩
          · intro s hs
            rw [List.mem_append] at hs
            rcases hs with hs | hs
            · simp only [List.mem_cons, List.not_mem_nil, or_false] at hs
              rcases hs with rfl | rfl | rfl | rfl <;>
                simp [initialStatus, extractingState, extractedState]
            · exact (hinv' s hs).2.2.2.2.1
          · intro s hs herr
            rw [List.mem_append] at hs
            rcases hs with hs | hs
            · simp only [List.mem_cons, List.not_mem_nil, or_false] at hs
              rcases hs with rfl | rfl | rfl | rfl <;>
                simp [initialStatus, extractingState, extractedState] at herr
            · rw [List.mem_append] at hs
              rcases hs with hs | hs
              · rw [hmid s hs] at herr
                exact absurd herr (by decide)
              · simp only [List.mem_singleton] at hs
                subst hs
                exact hgetlast
          · intro s hs hcomp
            rw [List.mem_append] at hs
            rcases hs with hs | hs
            · simp only [List.mem_cons, List.not_mem_nil, or_false] at hs
              rcases hs with rfl | rfl | rfl | rfl <;>
                simp [initialStatus, extractingState, extractedState] at hcomp
            · rw [List.mem_append] at hs
              rcases hs with hs | hs
              · rw [hmid s hs] at hcomp
                exact absurd hcomp (by decide)
              · simp only [List.mem_singleton] at hs
                subst hs
                exact hgetlast
  obtain ⟨k1, k2, k3⟩ := key
  refine ⟨k1, k2, k3, ?_⟩
  rintro ⟨s₀, hs₀, herr⟩ s hs hcomp
  have h2 := k2 s₀ hs₀ herr
  have h3 := k3 s hs hcomp
  rw [h2] at h3
  have hss : s₀ = s := Option.some.inj h3
  subst hss
  exact absurd (herr.symm.trans hcomp) (by decide)

/-- Witness for C6 at a concrete failed-extraction run. -/
theorem error_is_terminal_and_flagged_witness :
    ((errState extractingState "open failed").status = "error"
        ↔ (errState extractingState "open failed").error_message ≠ none) ∧
      (process_video_sync (α := Unit) (Except.error "open failed")
          (fun _ _ => Except.ok ()) (fun _ => Except.ok ())).1.getLast?
        = some (errState extractingState "open failed") :=
  ⟨(error_is_terminal_and_flagged (Except.error "open failed")
      (fun _ _ => Except.ok ()) (fun _ => Except.ok ())).1
      (errState extractingState "open failed")
      (by rw [process_video_sync_err]; simp),
   (error_is_terminal_and_flagged (Except.error "open failed")
      (fun _ _ => Except.ok ()) (fun _ => Except.ok ())).2.1
      (errState extractingState "open failed")
      (by rw [process_video_sync_err]; simp)
      (by simp [errState])⟩

/-! ## Claim C5 -/

/-- Counterexample to C5: `progress = 20 + (70 * (i + 1) / len(frames))`
uses true division and is never rounded.  A three-frame run (a 3-frame
source at 2 fps sampled every 0.5 s, exactly main.py's
`interval_seconds=0.5`) passes through progress 130/3 and 200/3, which
are not integers. -/
theorem progress_not_integer :
    ((process_video_sync (α := Unit)
        ((extract_frames ⟨2, 3⟩ (1/2)).map Prod.snd)
        (fun _ _ => Except.ok ()) (fun _ => Except.ok ())).1.map
      JobState.progress)
      = [0, 10, 20, 20, 130/3, 200/3, 90, 100] ∧
    (130/3 : ℚ).den = 3 ∧ (200/3 : ℚ).den = 3 := by
  have hpy : pyInt ((2 : ℚ) * (1/2)) = 1 := by norm_num [pyInt]
  have hext : (extract_frames ⟨2, 3⟩ (1/2)).map Prod.snd
      = Except.ok [0, 1/2, 1] := by
    simp only [extract_frames, hpy]
    norm_num [Except.map]
    rw [show (List.range 3) = [0, 1, 2] from rfl]
    norm_num
  rw [hext]
  refine ⟨?_, by norm_num, by norm_num⟩
  simp only [process_video_sync, analyzeLoop, List.enum, List.enumFrom]
  norm_num [initialStatus, extractingState, extractedState, completeState,
    errState]

/-- C5 as the code implements it: the run starts at progress 0
("uploaded"), moves to 10 on entering extraction and to 20 after it; in
every observable state progress lies in [0, 100]; every "analyzing"
state satisfies the exact (unrounded) formula
`progress = 20 + 70 × processedFrames / totalFrames`; every "complete"
state has progress 100; and the processed-frame counters of the
"analyzing" states count 0, 1, 2, … — one increment per frame. -/
theorem progress_formula {α : Type}
    (extraction : Except String (List ℚ)) (body : ℕ → ℚ → Except String α)
    (persist : List (ℕ × ℚ × α) → Except String Unit) :
    ((process_video_sync extraction body persist).1.get? 0).map
        JobState.status = some "uploaded" ∧
    ((process_video_sync extraction body persist).1.get? 0).map
        JobState.progress = some 0 ∧
    ((process_video_sync extraction body persist).1.get? 1).map
        JobState.status = some "extracting" ∧
    ((process_video_sync extraction body persist).1.get? 1).map
        JobState.progress = some 10 ∧
    (∀ s ∈ (process_video_sync extraction body persist).1,
        0 ≤ s.progress ∧ s.progress ≤ 100) ∧
    (∀ s ∈ (process_video_sync extraction body persist).1,
        s.status = "analyzing" →
        s.progress = 20 + 70 * (s.processed_frames : ℚ)
          / (s.total_frames : ℚ)) ∧
    (∀ s ∈ (process_video_sync extraction body persist).1,
        s.status = "complete" → s.progress = 100) ∧
    (∃ j, (((process_video_sync extraction body persist).1.filter
        (fun s => s.status == "analyzing")).map JobState.processed_frames)
      = List.range j) := by
  cases extraction with
  | error e =>
      rw [process_video_sync_err]
      refine ⟨rfl, rfl, rfl, rfl, ?_, ?_, ?_, ⟨0, ?_⟩⟩
      · intro s hs
        simp only [List.mem_cons, List.not_mem_nil, or_false] at hs
        rcases hs with rfl | rfl | rfl <;>
          constructor <;>
          simp [initialStatus, extractingState, errState] <;> norm_num
      · intro s hs
        simp only [List.mem_cons, List.not_mem_nil, or_false] at hs
        rcases hs with rfl | rfl | rfl <;>
          simp [initialStatus, extractingState, errState]
      · intro s hs
        simp only [List.mem_cons, List.not_mem_nil, or_false] at hs
        rcases hs with rfl | rfl | rfl <;>
          simp [initialStatus, extractingState, errState]
      · simp [initialStatus, extractingState, errState]
  | ok ts =>
      by_cases hn : ts.length = 0
      · rw [List.length_eq_zero] at hn
        subst hn
        rw [process_video_sync_nil]
        refine ⟨rfl, rfl, rfl, rfl, ?_, ?_, ?_, ⟨0, ?_⟩⟩
        · intro s hs
          simp only [List.mem_cons, List.not_mem_nil, or_false] at hs
          rcases hs with rfl | rfl | rfl | rfl <;>
            constructor <;>
            simp [initialStatus, extractingState, extractedState] <;>
            norm_num
        · intro s hs
          simp only [List.mem_cons, List.not_mem_nil, or_false] at hs
          rcases hs with rfl | rfl | rfl | rfl <;>
            simp [initialStatus, extractingState, extractedState]
        · intro s hs
          simp only [List.mem_cons, List.not_mem_nil, or_false] at hs
          rcases hs with rfl | rfl | rfl | rfl <;>
            simp [initialStatus, extractingState, extractedState]
        · simp [initialStatus, extractingState, extractedState]
      · have hn' : 0 < ts.length := Nat.pos_of_ne_zero hn
        rw [process_video_sync_pos body persist ts hn]
        obtain ⟨hA1, hA2, hA3, hA4, hA5⟩ := analyzing_entry_fields ts.length
        have hinv := analyzeLoop_inv body persist ts.length hn' ts 0
          { extractedState ts.length with status := "analyzing" } []
          hA1 hA5 hA3 hA4 (by omega) (by rw [hA2]; norm_num)
        obtain ⟨j, hj, hproc⟩ := analyzeLoop_processed body persist
          ts.length ts 0
          { extractedState ts.length with status := "analyzing" } [] hA1
        refine ⟨rfl, rfl, rfl, rfl, ?_, ?_, ?_, ⟨j + 1, ?_⟩⟩
        · intro s hs
          rw [List.mem_append] at hs
          rcases hs with hs | hs
          · simp only [List.mem_cons, List.not_mem_nil, or_false] at hs
            rcases hs with rfl | rfl | rfl | rfl <;>
              constructor <;>
              simp [initialStatus, extractingState, extractedState] <;>
              norm_num
          · exact ⟨(hinv s hs).2.2.1, (hinv s hs).2.2.2.1⟩
        · intro s hs hana
          rw [List.mem_append] at hs
          rcases hs with hs | hs
          · simp only [List.mem_cons, List.not_mem_nil, or_false] at hs
            rcases hs with rfl | rfl | rfl | rfl
            · simp [initialStatus] at hana
            · simp [extractingState, initialStatus] at hana
            · simp [extractedState, extractingState, initialStatus] at hana
            · simp [extractedState, extractingState, initialStatus]
              try norm_num
          · have h := (hinv s hs).2.2.2.2.2.1 hana
            rw [(hinv s hs).1]
            exact h.2
        · intro s hs hcomp
          rw [List.mem_append] at hs
          rcases hs with hs | hs
          · simp only [List.mem_cons, List.not_mem_nil, or_false] at hs
            rcases hs with rfl | rfl | rfl | rfl <;>
              simp [initialStatus, extractingState, extractedState] at hcomp
          · exact ((hinv s hs).2.2.2.2.2.2.1 hcomp).1
        · rw [List.filter_append]
          have hpre : ([initialStatus, extractingState,
              extractedState ts.length,
              { extractedState ts.length with
                status := "analyzing" }].filter
                (fun s => s.status == "analyzing"))
              = [{ extractedState ts.length with status := "analyzing" }] := by
            simp [initialStatus, extractingState, extractedState,
              List.filter]
          have hr : List.range (j + 1) = 0 :: List.range' 1 j := by
            rw [List.range_eq_range' (j + 1)]
            rfl
          rw [hpre, List.singleton_append, List.map_cons, hproc, hr]
          simp [extractedState, extractingState, initialStatus]

/-- Witness for the amended C5 at a concrete failed-extraction run. -/
theorem progress_formula_witness :
    0 ≤ (errState extractingState "open failed").progress ∧
      (errState extractingState "open failed").progress ≤ 100 :=
  (progress_formula (α := Unit) (Except.error "open failed")
      (fun _ _ => Except.ok ()) (fun _ => Except.ok ())).2.2.2.2.1
    (errState extractingState "open failed")
    (by rw [process_video_sync_err]; simp)

/-! ## Claim C8 -/

/-- A successful extraction always has the filter/map shape of the
source loop. -/
theorem extract_frames_ok_shape (src : VideoSource) (i : ℚ)
    (idxs : List ℕ) (ts : List ℚ)
    (h : extract_frames src i = Except.ok (idxs, ts)) :
    idxs = (List.range src.total_frames).filter
        (fun (k : ℕ) => (k : ℤ) % pyInt (src.fps * i) == 0) ∧
      ts = idxs.map (fun (k : ℕ) => (k : ℚ) / src.fps) := by
  rw [extract_frames.eq_def] at h
  by_cases hf : src.fps = 0
  · rw [if_pos hf] at h
    exact absurd h (by simp)
  · rw [if_neg hf] at h
    by_cases hm : pyInt (src.fps * i) = 0
    · simp only [hm, if_pos] at h
      exact absurd h (by simp)
    · simp only [if_neg hm] at h
      injection h with h
      injection h with h1 h2
      exact ⟨h1.symm, by rw [← h1, ← h2]⟩

/-- C8: extracted frame timestamps equal source index / frame rate, in
strictly increasing order, and the per-frame results the pipeline
accumulates are strictly increasing in both the result's frame index
and its timestamp. -/
theorem frame_results_ordering {α : Type} (src : VideoSource) (i : ℚ)
    (body : ℕ → ℚ → Except String α)
    (persist : List (ℕ × ℚ × α) → Except String Unit) (hf : 0 < src.fps) :
    (∀ idxs ts, extract_frames src i = Except.ok (idxs, ts) →
      ts = idxs.map (fun (k : ℕ) => (k : ℚ) / src.fps) ∧
      List.Pairwise (· < ·) idxs ∧
      List.Pairwise (· < ·) ts) ∧
    List.Pairwise (· < ·)
        (((process_video_sync ((extract_frames src i).map Prod.snd) body
            persist).2).map (fun r => r.1)) ∧
    List.Pairwise (· < ·)
        (((process_video_sync ((extract_frames src i).map Prod.snd) body
            persist).2).map (fun r => r.2.1)) := by
  have hdivmono : ∀ a b : ℕ, a < b →
      ((a : ℚ) / src.fps) < ((b : ℚ) / src.fps) := by
    intro a b hab
    exact (div_lt_div_iff_of_pos_right hf).mpr (by exact_mod_cast hab)
  have part1 : ∀ idxs ts, extract_frames src i = Except.ok (idxs, ts) →
      ts = idxs.map (fun (k : ℕ) => (k : ℚ) / src.fps) ∧
      List.Pairwise (· < ·) idxs ∧
      List.Pairwise (· < ·) ts := by
    intro idxs ts h
    obtain ⟨h1, h2⟩ := extract_frames_ok_shape src i idxs ts h
    have hpw : List.Pairwise (· < ·) idxs := by
      rw [h1]
      exact (List.pairwise_lt_range _).filter _
    exact ⟨h2, hpw, by rw [h2]; exact List.Pairwise.map _ hdivmono hpw⟩
  refine ⟨part1, ?_⟩
  cases hext : extract_frames src i with
  | error e =>
      rw [show (Except.error e : Except String (List ℕ × List ℚ)).map
          Prod.snd = Except.error e from rfl]
      rw [process_video_sync_err]
      simp
  | ok p =>
      obtain ⟨idxs, ts⟩ := p
      obtain ⟨-, hpw, hpwts⟩ := part1 idxs ts hext
      rw [show (Except.ok (idxs, ts) :
          Except String (List ℕ × List ℚ)).map Prod.snd
          = Except.ok ts from rfl]
      by_cases hn : ts.length = 0
      · rw [List.length_eq_zero] at hn
        subst hn
        rw [process_video_sync_nil]
        simp
      · rw [process_video_sync_pos body persist ts hn]
        obtain ⟨k, hk⟩ := analyzeLoop_results body persist ts.length
          (List.enumFrom 0 ts)
          { extractedState ts.length with status := "analyzing" } []
        have henum : List.enumFrom 0 ts = ts.enum := rfl
        rw [henum] at hk
        simp only [List.map_nil, List.nil_append] at hk
        constructor
        · have : ((analyzeLoop body persist ts.length
              { extractedState ts.length with status := "analyzing" }
              ts.enum []).2).map (fun r => r.1)
              = (ts.enum.take k).map Prod.fst := by
            calc ((analyzeLoop body persist ts.length
                  { extractedState ts.length with status := "analyzing" }
                  ts.enum []).2).map (fun r => r.1)
                = (((analyzeLoop body persist ts.length
                    { extractedState ts.length with status := "analyzing" }
                    ts.enum []).2).map (fun r => (r.1, r.2.1))).map
                      Prod.fst := by
                  rw [List.map_map]; rfl
              _ = (ts.enum.take k).map Prod.fst := by rw [hk]
          rw [henum, this, List.map_take, List.enum_map_fst]
          exact (List.pairwise_lt_range _).sublist (List.take_sublist _ _)
        · have : ((analyzeLoop body persist ts.length
              { extractedState ts.length with status := "analyzing" }
              ts.enum []).2).map (fun r => r.2.1)
              = (ts.enum.take k).map Prod.snd := by
            calc ((analyzeLoop body persist ts.length
                  { extractedState ts.length with status := "analyzing" }
                  ts.enum []).2).map (fun r => r.2.1)
                = (((analyzeLoop body persist ts.length
                    { extractedState ts.length with status := "analyzing" }
                    ts.enum []).2).map (fun r => (r.1, r.2.1))).map
                      Prod.snd := by
                  rw [List.map_map]; rfl
              _ = (ts.enum.take k).map Prod.snd := by rw [hk]
          rw [henum, this, List.map_take, List.enum_map_snd]
          exact hpwts.sublist (List.take_sublist _ _)

/-- Witness for C8 at a 3-frame, 2 fps source sampled every 0.5 s. -/
theorem frame_results_ordering_witness :
    List.Pairwise (· < ·)
      (((process_video_sync (α := Unit)
          ((extract_frames ⟨2, 3⟩ (1/2)).map Prod.snd)
          (fun _ _ => Except.ok ()) (fun _ => Except.ok ())).2).map
        (fun r => r.1)) :=
  (frame_results_ordering ⟨2, 3⟩ (1/2) (fun _ _ => Except.ok ())
      (fun _ => Except.ok ()) (by norm_num)).2.1

end VisionDetection
